import Mathlib

/-!
Shallow embedding of dry-rest-permissions (src/dry_rest_permissions/generics.py)
and proofs of the specification claims about it.

The library is a permission-resolution convention for django-rest-framework:
a permission gate (DRYPermissions), a list-filter base
(DRYPermissionFiltersBase), a serializer field (DRYPermissionsField) and
three decorators.  The embedding models Python attribute tables as partial
maps from attribute names to permission functions, raised AssertionError /
AttributeError as an Except error value, and HTTP requests as records.
-/

set_option linter.unusedVariables false

namespace DRY

/-- A framework user, carrying the flags the decorators inspect
(request.user.is_staff, .is_superuser, .is_authenticated). -/
structure User where
  is_staff : Bool
  is_superuser : Bool
  is_authenticated : Bool
deriving Repr, DecidableEq

/-- An HTTP request: its method string and its user. -/
structure Request where
  method : String
  user : User
deriving Repr, DecidableEq

/-- rest_framework.permissions.SAFE_METHODS: the read-only HTTP methods. -/
def SAFE_METHODS : List String := ["GET", "HEAD", "OPTIONS"]

/-- A permission method defined on a model class or instance: it receives
the request and returns a boolean. -/
def PermMethod : Type := Request → Bool

/-- A model class: its printable name and its attribute table of permission
methods.  `methods n = none` models `hasattr(cls, n) == False`. -/
structure ModelClass where
  name : String
  methods : String → Option PermMethod

/-- A model instance: its class plus instance attributes.  Python attribute
lookup tries the instance dict first and falls back to the class. -/
structure Obj where
  cls : ModelClass
  instMethods : String → Option PermMethod

/-- Python getattr on an instance: instance attribute, else class attribute. -/
def Obj.getattr (o : Obj) (n : String) : Option PermMethod :=
  match o.instMethods n with
  | some f => some f
  | none => o.cls.methods n

/-- The parts of a DRF view the gate consults: the optional `action`
attribute (absent models `hasattr(view, 'action') == False`),
`view.get_serializer_class().Meta.model` (which may be Python None), and the
view class name used in error messages. -/
structure GateView where
  action : Option String
  serializerModel : Option ModelClass
  className : String

/-- The class attributes of DRYPermissions that subclasses may override. -/
structure DRYPermissionsCfg where
  global_permissions : Bool
  object_permissions : Bool
  partial_update_is_update : Bool

/-- The attribute values on the DRYPermissions class itself. -/
def DRYPermissions.defaultCfg : DRYPermissionsCfg :=
  { global_permissions := true, object_permissions := true,
    partial_update_is_update := true }

/-- DRYGlobalPermissions: the preset that disables object checks. -/
def DRYGlobalPermissions.cfg : DRYPermissionsCfg :=
  { DRYPermissions.defaultCfg with object_permissions := false }

/-- DRYObjectPermissions: the preset that disables global checks. -/
def DRYObjectPermissions.cfg : DRYPermissionsCfg :=
  { DRYPermissions.defaultCfg with global_permissions := false }

/-- A raised Python error: AssertionError with its message, or
AttributeError with the missing attribute name. -/
inductive PyError where
  | assertionError (msg : String)
  | attributeError (name : String)
deriving Repr, DecidableEq

/-- DRYPermissions._get_action: collapse partial_update to update when so
configured. -/
def _get_action (cfg : DRYPermissionsCfg) (action : String) : String :=
  if cfg.partial_update_is_update && action == "partial_update" then "update"
  else action

/-- DRYPermissions._get_error_message (the quote punctuation of the Python
format string is elided; the structure of the message is kept). -/
def _get_error_message (model_name method_name : String)
    (action_method_name : Option String) : String :=
  match action_method_name with
  | some amn =>
      model_name ++ " does not have " ++ method_name ++ " or " ++ amn ++ " defined."
  | none =>
      model_name ++ " does not have " ++ method_name ++ " defined."

/-- DRYPermissions.has_permission: the global check.  Produces the boolean
the gate returns, or the AssertionError it raises. -/
def has_permission (cfg : DRYPermissionsCfg) (request : Request)
    (view : GateView) : Except PyError Bool :=
  if !cfg.global_permissions then .ok true
  else
    match view.serializerModel with
    | none =>
        .error (.assertionError
          ("global_permissions set to true without a model set on the serializer for "
            ++ view.className))
    | some model_class =>
      let action_method_name : Option String :=
        view.action.map (fun a => "has_" ++ _get_action cfg a ++ "_permission")
      let specific : Option Bool :=
        match action_method_name with
        | some amn =>
          match model_class.methods amn with
          | some f => some (f request)
          | none => none
        | none => none
      match specific with
      | some b => .ok b
      | none =>
        if SAFE_METHODS.contains request.method then
          match model_class.methods "has_read_permission" with
          | some f => .ok (f request)
          | none =>
              .error (.assertionError
                (_get_error_message model_class.name "has_read_permission"
                  action_method_name))
        else
          match model_class.methods "has_write_permission" with
          | some f => .ok (f request)
          | none =>
              .error (.assertionError
                (_get_error_message model_class.name "has_write_permission"
                  action_method_name))

/-- Printable name of `serializer_class.Meta.model`, as used in the object
side error messages (Python formats None as the string None). -/
def metaModelName : Option ModelClass → String
  | some m => m.name
  | none => "None"

/-- DRYPermissions.has_object_permission: the object-level check on one
instance. -/
def has_object_permission (cfg : DRYPermissionsCfg) (request : Request)
    (view : GateView) (obj : Obj) : Except PyError Bool :=
  if !cfg.object_permissions then .ok true
  else
    let mname := metaModelName view.serializerModel
    let action_method_name : Option String :=
      view.action.map (fun a => "has_object_" ++ _get_action cfg a ++ "_permission")
    let specific : Option Bool :=
      match action_method_name with
      | some amn =>
        match obj.getattr amn with
        | some f => some (f request)
        | none => none
      | none => none
    match specific with
    | some b => .ok b
    | none =>
      if SAFE_METHODS.contains request.method then
        match obj.getattr "has_object_read_permission" with
        | some f => .ok (f request)
        | none =>
            .error (.assertionError
              (_get_error_message mname "has_object_read_permission"
                action_method_name))
      else
        match obj.getattr "has_object_write_permission" with
        | some f => .ok (f request)
        | none =>
            .error (.assertionError
              (_get_error_message mname "has_object_write_permission"
                action_method_name))

/-- The framework grants access only when has_permission and
has_object_permission both return true; this conjunction is what the spec
calls the overall permission decision. -/
def overallPermission (cfg : DRYPermissionsCfg) (request : Request)
    (view : GateView) (obj : Obj) : Except PyError Bool :=
  match has_permission cfg request view with
  | .error e => .error e
  | .ok g =>
    match has_object_permission cfg request view obj with
    | .error e => .error e
    | .ok o => .ok (g && o)

/-! ## DRYPermissionFiltersBase -/

/-- The parts of a DRF view the filter backend consults: whether
`view.lookup_field in view.kwargs`, the view.action string used by action
routing, and the view class name used in the assertion message. -/
structure FilterView where
  lookupFieldInKwargs : Bool
  action : String
  className : String

/-- A concrete filter backend instance: the `action_routing` class
attribute and the filter methods the subclass defines, by name.  The map
covers only subclass definitions; the base class additionally defines
`filter_list_queryset`, whose body is `assert False`. -/
structure FilterBackend (Q : Type) where
  action_routing : Bool
  subclassMethods : String → Option (Request → Q → FilterView → Q)

/-- DRYPermissionFiltersBase.filter_list_queryset, as resolved on the
instance: the subclass override when present, else the base body, which
raises AssertionError. -/
def filter_list_queryset {Q : Type} (self : FilterBackend Q) (request : Request)
    (queryset : Q) (view : FilterView) : Except PyError Q :=
  match self.subclassMethods "filter_list_queryset" with
  | some f => .ok (f request queryset view)
  | none =>
      .error (.assertionError
        ("Method filter_list_queryset must be overridden on " ++ view.className))

/-- DRYPermissionFiltersBase.filter_queryset.  A list-type request
(lookup field absent from kwargs) is delegated to filter_list_queryset or,
under action routing, to the dynamically named method; getattr on a name
not defined anywhere on the instance raises AttributeError, while the name
filter_list_queryset always resolves (to the asserting base body when not
overridden).  A single-object request returns the queryset unchanged. -/
def filter_queryset {Q : Type} (self : FilterBackend Q) (request : Request)
    (queryset : Q) (view : FilterView) : Except PyError Q :=
  if !view.lookupFieldInKwargs then
    if !self.action_routing then
      filter_list_queryset self request queryset view
    else
      let method_name := "filter_" ++ view.action ++ "_queryset"
      match self.subclassMethods method_name with
      | some f => .ok (f request queryset view)
      | none =>
        if method_name == "filter_list_queryset" then
          filter_list_queryset self request queryset view
        else
          .error (.attributeError method_name)
  else .ok queryset

/-! ## DRYPermissionsField -/

/-- The default_actions class attribute of DRYPermissionsField. -/
def default_actions : List String :=
  ["create", "retrieve", "update", "destroy", "write", "read"]

/-- The caller-visible keyword arguments that DRYPermissionsField.__init__
forwards to the base Field constructor.  source and read_only are optional
because a caller need not pass them. -/
structure FieldKwargs where
  source : Option String
  read_only : Option Bool
deriving Repr, DecidableEq

/-- The state a DRYPermissionsField holds after __init__: its option
flags, resolved action list, and the keyword arguments actually handed to
the base class (source and read_only now always set). -/
structure FieldInitState where
  global_only : Bool
  object_only : Bool
  actions : List String
  super_source : String
  super_read_only : Bool
deriving Repr, DecidableEq

/-- The action list DRYPermissionsField.__init__ resolves: the default
actions unless a list is supplied, extended with additional_actions. -/
def resolveActions (actions additional_actions : Option (List String)) :
    List String :=
  let acts := match actions with
    | none => default_actions
    | some l => l
  match additional_actions with
  | none => acts
  | some l => acts ++ l

/-- DRYPermissionsField.__init__: rejects global_only and object_only both
true, resolves the action list, and overwrites kwargs with source = "*" and
read_only = True before calling the base constructor. -/
def fieldInit (actions additional_actions : Option (List String))
    (global_only object_only : Bool) (kwargs : FieldKwargs) :
    Except PyError FieldInitState :=
  if global_only && object_only then
    .error (.assertionError
      ("Both global_only and object_only cannot be set to true "
        ++ "on a DRYPermissionsField"))
  else
    .ok { global_only := global_only, object_only := object_only,
          actions := resolveActions actions additional_actions,
          super_source := "*", super_read_only := true }

/-- The per-action record stored in action_method_map: the recorded
global-style and object-style method names, each optional. -/
structure ActionMethods where
  globalName : Option String
  objectName : Option String
deriving Repr, DecidableEq

/-- The global permission method name for an action. -/
def global_method_name (action : String) : String :=
  "has_" ++ action ++ "_permission"

/-- The object permission method name for an action. -/
def object_method_name (action : String) : String :=
  "has_object_" ++ action ++ "_permission"

/-- The entry DRYPermissionsField.bind records for one action: probe the
serializer model for the global-style name (unless object_only) and the
object-style name (unless global_only); no entry when neither exists. -/
def bindEntry (model : ModelClass) (global_only object_only : Bool)
    (action : String) : Option ActionMethods :=
  let g : Option String :=
    if !object_only && (model.methods (global_method_name action)).isSome then
      some (global_method_name action)
    else none
  let o : Option String :=
    if !global_only && (model.methods (object_method_name action)).isSome then
      some (object_method_name action)
    else none
  match g, o with
  | none, none => none
  | _, _ => some { globalName := g, objectName := o }

/-- The action_method_map DRYPermissionsField.bind builds over the action
list: one entry per action for which at least one method exists, keyed by
action in list order. -/
def bindMap (model : ModelClass) (global_only object_only : Bool) :
    List String → List (String × ActionMethods)
  | [] => []
  | a :: rest =>
    match bindEntry model global_only object_only a with
    | some e => (a, e) :: bindMap model global_only object_only rest
    | none => bindMap model global_only object_only rest

/-- The results dictionary built by to_representation, as an association
list in insertion order with unique keys looked up from the front. -/
def AList : Type := List (String × Bool)

/-- Python results.get(k, default-absent): the first binding of k. -/
def alGet (l : List (String × Bool)) (k : String) : Option Bool :=
  match l with
  | [] => none
  | (k', v) :: rest => if k' == k then some v else alGet rest k

/-- Python results[k] = v: overwrite in place, else append. -/
def alSet (l : List (String × Bool)) (k : String) (v : Bool) :
    List (String × Bool) :=
  match l with
  | [] => [(k, v)]
  | (k', v') :: rest =>
    if k' == k then (k', v) :: rest else (k', v') :: alSet rest k v

/-- One iteration of the to_representation loop for one recorded action:
evaluate the global method on the model class unless object_only; then,
unless global_only, when the result so far is not False and an object
method was recorded, evaluate it on the instance.  A recorded name that no
longer resolves raises AttributeError (getattr without default). -/
def processAction (global_only object_only : Bool) (model : ModelClass)
    (value : Obj) (request : Request) (results : List (String × Bool))
    (action : String) (mns : ActionMethods) :
    Except PyError (List (String × Bool)) :=
  let step1 : Except PyError (List (String × Bool)) :=
    match mns.globalName with
    | some g =>
      if object_only then .ok results
      else
        match model.methods g with
        | some f => .ok (alSet results action (f request))
        | none => .error (.attributeError g)
    | none => .ok results
  match step1 with
  | .error e => .error e
  | .ok results1 =>
    match mns.objectName with
    | some o =>
      if global_only then .ok results1
      else
        if (alGet results1 action).getD true then
          match value.getattr o with
          | some f => .ok (alSet results1 action (f request))
          | none => .error (.attributeError o)
        else .ok results1
    | none => .ok results1

/-- The to_representation loop over the recorded action_method_map. -/
def to_representation_loop (global_only object_only : Bool)
    (model : ModelClass) (value : Obj) (request : Request) :
    List (String × ActionMethods) → List (String × Bool) →
    Except PyError (List (String × Bool))
  | [], results => .ok results
  | (a, mns) :: rest, results =>
    match processAction global_only object_only model value request results a mns with
    | .error e => .error e
    | .ok results' =>
        to_representation_loop global_only object_only model value request rest results'

/-- DRYPermissionsField.to_representation on a bound field: run the loop
over the action_method_map starting from the empty dictionary. -/
def to_representation (global_only object_only : Bool) (model : ModelClass)
    (value : Obj) (request : Request)
    (action_method_map : List (String × ActionMethods)) :
    Except PyError (List (String × Bool)) :=
  to_representation_loop global_only object_only model value request
    action_method_map []

/-! ## Decorators -/

/-- Does the character list start with the given needle. -/
def chStarts : List Char → List Char → Bool
  | [], _ => true
  | _ :: _, [] => false
  | n :: ns, h :: hs => (n == h) && chStarts ns hs

/-- Does the needle occur as a contiguous run inside the haystack. -/
def chInside (needle : List Char) : List Char → Bool
  | [] => chStarts needle []
  | h :: hs => chStarts needle (h :: hs) || chInside needle hs

/-- The Python substring test `needle in hay`. -/
def pyIn (needle hay : String) : Bool :=
  chInside needle.toList hay.toList

/-- A fallback request value standing for the arguments a wrapper would
index; the claims concern calls that supply enough arguments. -/
def dummyRequest : Request :=
  { method := "",
    user := { is_staff := false, is_superuser := false, is_authenticated := false } }

/-- allow_staff_or_superuser: decides whether the request is the first or
second positional argument by testing whether the wrapped function's name
contains "has_object", short-circuits to True for staff or superusers, and
otherwise delegates to the wrapped function on the same arguments. -/
def allow_staff_or_superuser (funcName : String) (func : List Request → Bool)
    (args : List Request) : Bool :=
  let is_object_permission := pyIn "has_object" funcName
  let request := if is_object_permission then args.getD 1 dummyRequest
                 else args.getD 0 dummyRequest
  if request.user.is_staff || request.user.is_superuser then true
  else func args

/-- Locating the request by testing whether the wrapped function's name
contains "object", as the spec sentence for the staff bypass describes it;
stated for comparison with allow_staff_or_superuser. -/
def spec_allow_staff_or_superuser (funcName : String)
    (func : List Request → Bool) (args : List Request) : Bool :=
  let is_object_permission := pyIn "object" funcName
  let request := if is_object_permission then args.getD 1 dummyRequest
                 else args.getD 0 dummyRequest
  if request.user.is_staff || request.user.is_superuser then true
  else func args

/-! ## Concrete fixtures used by witnesses -/

/-- A non-staff, non-superuser, authenticated user. -/
def plainUser : User :=
  { is_staff := false, is_superuser := false, is_authenticated := true }

/-- A staff user. -/
def staffUser : User :=
  { is_staff := true, is_superuser := false, is_authenticated := true }

/-- A GET request from the plain user. -/
def reqGET : Request := { method := "GET", user := plainUser }

/-- A POST request from the plain user. -/
def reqPOST : Request := { method := "POST", user := plainUser }

/-- A GET request from the staff user. -/
def reqStaff : Request := { method := "GET", user := staffUser }

/-- A model class defining a specific retrieve method (returning False)
together with general read/write methods (returning True). -/
def mcFull : ModelClass :=
  { name := "ExampleModel",
    methods := fun n =>
      if n == "has_retrieve_permission" then some (fun _ => false)
      else if n == "has_read_permission" then some (fun _ => true)
      else if n == "has_write_permission" then some (fun _ => true)
      else none }

/-- A model class defining no permission methods at all. -/
def mcEmpty : ModelClass := { name := "EmptyModel", methods := fun _ => none }

/-- An instance of mcFull with an instance-level object read method. -/
def objFull : Obj :=
  { cls := mcFull,
    instMethods := fun n =>
      if n == "has_object_read_permission" then some (fun _ => true)
      else none }

/-- An instance of mcFull carrying a specific object retrieve method. -/
def objRetrieve : Obj :=
  { cls := mcFull,
    instMethods := fun n =>
      if n == "has_object_retrieve_permission" then some (fun _ => true)
      else if n == "has_object_read_permission" then some (fun _ => false)
      else none }

/-- An instance of mcEmpty with no instance attributes. -/
def objEmpty : Obj := { cls := mcEmpty, instMethods := fun _ => none }

/-- A view whose action is retrieve, over mcFull. -/
def vRetrieve : GateView :=
  { action := some "retrieve", serializerModel := some mcFull,
    className := "ExampleView" }

/-- A view with no action attribute, over mcFull. -/
def vNoAction : GateView :=
  { action := none, serializerModel := some mcFull,
    className := "ExampleView" }

/-- A view whose action is retrieve, over the empty model class. -/
def vEmptyRetrieve : GateView :=
  { action := some "retrieve", serializerModel := some mcEmpty,
    className := "ExampleView" }

/-! ## Claims -/

/-- C5: when the view's lookup field is present in its kwargs (a
single-object request), filter_queryset returns the input queryset
unchanged, for every action_routing setting and every set of subclass
filter methods. -/
theorem c5_single_object_request_not_filtered :
    ∀ (Q : Type) (self : FilterBackend Q) (r : Request) (q : Q)
      (v : FilterView),
    v.lookupFieldInKwargs = true → filter_queryset self r q v = .ok q := by
  intro Q self r q v h
  simp [filter_queryset, h]

/-- Witness for C5 at a concrete backend with routing enabled and a
subclass filter method defined. -/
theorem c5_witness :
    filter_queryset
      { action_routing := true,
        subclassMethods := fun _ => some (fun _ _ _ => (0 : Nat)) }
      reqGET 37 { lookupFieldInKwargs := true, action := "list",
                  className := "ExampleView" } = .ok 37 :=
  c5_single_object_request_not_filtered Nat
    { action_routing := true,
      subclassMethods := fun _ => some (fun _ _ _ => (0 : Nat)) }
    reqGET 37
    { lookupFieldInKwargs := true, action := "list", className := "ExampleView" }
    rfl

/-- C9: DRYPermissionsField.__init__ forces source to "*" and read_only to
True no matter what the caller passed in kwargs, and resolves the action
list; stated for every kwargs value, so caller-supplied source/read_only
are silently overridden. -/
theorem c9_field_init_forces_source_and_read_only :
    ∀ (acts adds : Option (List String)) (go oo : Bool) (kwargs : FieldKwargs),
    (go && oo) = false →
    fieldInit acts adds go oo kwargs =
      .ok { global_only := go, object_only := oo,
            actions := resolveActions acts adds,
            super_source := "*", super_read_only := true } := by
  intro acts adds go oo kwargs h
  simp [fieldInit, h]

/-- Witness for C9: a caller passing source and read_only explicitly still
gets source = "*" and read_only = True. -/
theorem c9_witness :
    fieldInit none none false false
      { source := some "somefield", read_only := some false } =
      .ok { global_only := false, object_only := false,
            actions := default_actions,
            super_source := "*", super_read_only := true } :=
  c9_field_init_forces_source_and_read_only none none false false
    { source := some "somefield", read_only := some false } rfl

/-- C6: with partial_update_is_update true the action partial_update is
resolved exactly like update, so the gate's two results coincide on every
model; with the flag false partial_update keeps its own name; no other
action string is ever renamed. -/
theorem c6_partial_update_collapses_to_update :
    (∀ cfg : DRYPermissionsCfg, cfg.partial_update_is_update = true →
      _get_action cfg "partial_update" = "update" ∧
      ∀ (r : Request) (mo : Option ModelClass) (cn : String) (obj : Obj),
        has_permission cfg r
            { action := some "partial_update", serializerModel := mo,
              className := cn } =
          has_permission cfg r
            { action := some "update", serializerModel := mo,
              className := cn } ∧
        has_object_permission cfg r
            { action := some "partial_update", serializerModel := mo,
              className := cn } obj =
          has_object_permission cfg r
            { action := some "update", serializerModel := mo,
              className := cn } obj) ∧
    (∀ cfg : DRYPermissionsCfg, cfg.partial_update_is_update = false →
      _get_action cfg "partial_update" = "partial_update") ∧
    (∀ (cfg : DRYPermissionsCfg) (a : String), a ≠ "partial_update" →
      _get_action cfg a = a) := by
  refine ⟨?_, ?_, ?_⟩
  · intro cfg h
    have hga : _get_action cfg "partial_update" = "update" := by
      simp [_get_action, h]
    have hgu : _get_action cfg "update" = "update" := by
      simp [_get_action]
    refine ⟨hga, ?_⟩
    intro r mo cn obj
    constructor
    · simp only [has_permission, Option.map_some', hga, hgu]
    · simp only [has_object_permission, Option.map_some', hga, hgu]
  · intro cfg h
    simp [_get_action, h]
  · intro cfg a h
    simp [_get_action, h]

/-- Witness for C6 at the default configuration and a configuration with
the flag cleared. -/
theorem c6_witness :
    (_get_action DRYPermissions.defaultCfg "partial_update" = "update" ∧
      has_permission DRYPermissions.defaultCfg reqPOST
          { action := some "partial_update", serializerModel := some mcFull,
            className := "ExampleView" } =
        has_permission DRYPermissions.defaultCfg reqPOST
          { action := some "update", serializerModel := some mcFull,
            className := "ExampleView" }) ∧
    _get_action { DRYPermissions.defaultCfg with partial_update_is_update := false }
        "partial_update" = "partial_update" ∧
    _get_action DRYPermissions.defaultCfg "retrieve" = "retrieve" := by
  refine ⟨⟨?_, ?_⟩, ?_, ?_⟩
  · exact (c6_partial_update_collapses_to_update.1 DRYPermissions.defaultCfg rfl).1
  · exact ((c6_partial_update_collapses_to_update.1 DRYPermissions.defaultCfg rfl).2
      reqPOST (some mcFull) "ExampleView" objEmpty).1
  · exact c6_partial_update_collapses_to_update.2.1 _ rfl
  · exact c6_partial_update_collapses_to_update.2.2 DRYPermissions.defaultCfg
      "retrieve" (by decide)

/-- C2: with both check categories enabled the overall decision is the
conjunction of the global and the object result; disabling global checks
makes has_permission return true immediately, so the overall result is the
object result alone; disabling object checks is symmetric. -/
theorem c2_overall_is_conjunction_of_enabled_checks :
    (∀ (cfg : DRYPermissionsCfg) (r : Request) (v : GateView) (obj : Obj)
        (g o : Bool),
      cfg.global_permissions = true → cfg.object_permissions = true →
      has_permission cfg r v = .ok g →
      has_object_permission cfg r v obj = .ok o →
      overallPermission cfg r v obj = .ok (g && o)) ∧
    (∀ (cfg : DRYPermissionsCfg) (r : Request) (v : GateView) (obj : Obj),
      cfg.global_permissions = false →
      has_permission cfg r v = .ok true ∧
      overallPermission cfg r v obj = has_object_permission cfg r v obj) ∧
    (∀ (cfg : DRYPermissionsCfg) (r : Request) (v : GateView) (obj : Obj),
      cfg.object_permissions = false →
      has_object_permission cfg r v obj = .ok true ∧
      overallPermission cfg r v obj = has_permission cfg r v) := by
  refine ⟨?_, ?_, ?_⟩
  · intro cfg r v obj g o _ _ hg ho
    simp [overallPermission, hg, ho]
  · intro cfg r v obj h
    have hp : has_permission cfg r v = .ok true := by
      simp [has_permission, h]
    refine ⟨hp, ?_⟩
    cases hob : has_object_permission cfg r v obj <;>
      simp [overallPermission, hp, hob]
  · intro cfg r v obj h
    have hop : has_object_permission cfg r v obj = .ok true := by
      simp [has_object_permission, h]
    refine ⟨hop, ?_⟩
    cases hg : has_permission cfg r v <;>
      simp [overallPermission, hg, hop]

/-- Witness for C2: concrete gate results under the default configuration
and under the two presets. -/
theorem c2_witness :
    overallPermission DRYPermissions.defaultCfg reqGET vRetrieve objFull =
        .ok (false && true) ∧
    overallPermission DRYObjectPermissions.cfg reqGET vRetrieve objFull =
        has_object_permission DRYObjectPermissions.cfg reqGET vRetrieve objFull ∧
    overallPermission DRYGlobalPermissions.cfg reqGET vRetrieve objFull =
        has_permission DRYGlobalPermissions.cfg reqGET vRetrieve := by
  refine ⟨?_, ?_, ?_⟩
  · exact c2_overall_is_conjunction_of_enabled_checks.1
      DRYPermissions.defaultCfg reqGET vRetrieve objFull false true
      rfl rfl (by rfl) (by rfl)
  · exact (c2_overall_is_conjunction_of_enabled_checks.2.1
      DRYObjectPermissions.cfg reqGET vRetrieve objFull rfl).2
  · exact (c2_overall_is_conjunction_of_enabled_checks.2.2
      DRYGlobalPermissions.cfg reqGET vRetrieve objFull rfl).2

/-- C1: when the model class defines the specific global method for the
view's resolved action, has_permission returns exactly its value — the
general read/write methods are never consulted, whatever they are, since
the model class is otherwise arbitrary; symmetrically, when the object
exposes the specific object method, has_object_permission returns exactly
its value. -/
theorem c1_specific_action_method_is_authoritative :
    (∀ (cfg : DRYPermissionsCfg) (r : Request) (v : GateView) (a : String)
        (mc : ModelClass) (f : PermMethod),
      cfg.global_permissions = true →
      v.action = some a →
      v.serializerModel = some mc →
      mc.methods ("has_" ++ _get_action cfg a ++ "_permission") = some f →
      has_permission cfg r v = .ok (f r)) ∧
    (∀ (cfg : DRYPermissionsCfg) (r : Request) (v : GateView) (a : String)
        (obj : Obj) (g : PermMethod),
      cfg.object_permissions = true →
      v.action = some a →
      obj.getattr ("has_object_" ++ _get_action cfg a ++ "_permission") = some g →
      has_object_permission cfg r v obj = .ok (g r)) := by
  constructor
  · intro cfg r v a mc f hg ha hm hf
    simp [has_permission, hg, ha, hm, hf]
  · intro cfg r v a obj g ho ha hf
    simp [has_object_permission, ho, ha, hf]

/-- Witness for C1: the specific retrieve methods decide, although the
general read/write methods exist and return the opposite. -/
theorem c1_witness :
    has_permission DRYPermissions.defaultCfg reqGET vRetrieve = .ok false ∧
    has_object_permission DRYPermissions.defaultCfg reqGET vRetrieve
      objRetrieve = .ok true := by
  constructor
  · exact c1_specific_action_method_is_authoritative.1
      DRYPermissions.defaultCfg reqGET vRetrieve "retrieve" mcFull
      (fun _ => false) rfl rfl rfl rfl
  · exact c1_specific_action_method_is_authoritative.2
      DRYPermissions.defaultCfg reqGET vRetrieve "retrieve" objRetrieve
      (fun _ => true) rfl rfl rfl

/-- C3: when the model class lacks the specific method for the view's
resolved action, a safe request resolves through has_read_permission and an
unsafe one through has_write_permission, each raising the descriptive
AssertionError when the general method is absent; the object side behaves
identically through the object general methods on the instance. -/
theorem c3_general_fallback_and_missing_method_assertion :
    (∀ (cfg : DRYPermissionsCfg) (r : Request) (v : GateView) (a : String)
        (mc : ModelClass),
      cfg.global_permissions = true →
      v.action = some a →
      v.serializerModel = some mc →
      mc.methods ("has_" ++ _get_action cfg a ++ "_permission") = none →
      (r.method ∈ SAFE_METHODS →
        has_permission cfg r v =
          (match mc.methods "has_read_permission" with
           | some f => .ok (f r)
           | none => .error (.assertionError
              (_get_error_message mc.name "has_read_permission"
                (some ("has_" ++ _get_action cfg a ++ "_permission")))))) ∧
      (r.method ∉ SAFE_METHODS →
        has_permission cfg r v =
          (match mc.methods "has_write_permission" with
           | some f => .ok (f r)
           | none => .error (.assertionError
              (_get_error_message mc.name "has_write_permission"
                (some ("has_" ++ _get_action cfg a ++ "_permission"))))))) ∧
    (∀ (cfg : DRYPermissionsCfg) (r : Request) (v : GateView) (a : String)
        (obj : Obj),
      cfg.object_permissions = true →
      v.action = some a →
      obj.getattr ("has_object_" ++ _get_action cfg a ++ "_permission") = none →
      (r.method ∈ SAFE_METHODS →
        has_object_permission cfg r v obj =
          (match obj.getattr "has_object_read_permission" with
           | some f => .ok (f r)
           | none => .error (.assertionError
              (_get_error_message (metaModelName v.serializerModel)
                "has_object_read_permission"
                (some ("has_object_" ++ _get_action cfg a ++ "_permission")))))) ∧
      (r.method ∉ SAFE_METHODS →
        has_object_permission cfg r v obj =
          (match obj.getattr "has_object_write_permission" with
           | some f => .ok (f r)
           | none => .error (.assertionError
              (_get_error_message (metaModelName v.serializerModel)
                "has_object_write_permission"
                (some ("has_object_" ++ _get_action cfg a ++ "_permission"))))))) := by
  constructor
  · intro cfg r v a mc hg ha hm hspec
    constructor
    · intro hsafe
      simp [has_permission, hg, ha, hm, hspec, hsafe]
    · intro hunsafe
      simp [has_permission, hg, ha, hm, hspec, hunsafe]
  · intro cfg r v a obj ho ha hspec
    constructor
    · intro hsafe
      simp [has_object_permission, ho, ha, hspec, hsafe]
    · intro hunsafe
      simp [has_object_permission, ho, ha, hspec, hunsafe]

/-- Witness for C3: over mcFull a POST with action create falls back to
has_write_permission, and over the empty model class the same request
raises the AssertionError naming both missing methods; likewise on the
object side for a GET. -/
theorem c3_witness :
    has_permission DRYPermissions.defaultCfg reqPOST
      { action := some "create", serializerModel := some mcFull,
        className := "ExampleView" } = .ok true ∧
    has_permission DRYPermissions.defaultCfg reqPOST
      { action := some "create", serializerModel := some mcEmpty,
        className := "ExampleView" } =
      .error (.assertionError
        "EmptyModel does not have has_write_permission or has_create_permission defined.") ∧
    has_object_permission DRYPermissions.defaultCfg reqGET vEmptyRetrieve
      objEmpty =
      .error (.assertionError
        "EmptyModel does not have has_object_read_permission or has_object_retrieve_permission defined.") := by
  refine ⟨?_, ?_, ?_⟩
  · exact (c3_general_fallback_and_missing_method_assertion.1
      DRYPermissions.defaultCfg reqPOST
      { action := some "create", serializerModel := some mcFull,
        className := "ExampleView" } "create" mcFull
      rfl rfl rfl rfl).2 (by decide)
  · exact (c3_general_fallback_and_missing_method_assertion.1
      DRYPermissions.defaultCfg reqPOST
      { action := some "create", serializerModel := some mcEmpty,
        className := "ExampleView" } "create" mcEmpty
      rfl rfl rfl rfl).2 (by decide)
  · exact (c3_general_fallback_and_missing_method_assertion.2
      DRYPermissions.defaultCfg reqGET vEmptyRetrieve "retrieve" objEmpty
      rfl rfl rfl).1 (by decide)

/-- C10: on a view without an action attribute the gate never looks at any
specific method: the result is determined entirely by the general
read/write methods (and model name), and equals the general resolution
chosen by HTTP-method safety. -/
theorem c10_no_action_attribute_uses_general_methods_only :
    (∀ (cfg : DRYPermissionsCfg) (r : Request) (v : GateView) (mc : ModelClass),
      cfg.global_permissions = true →
      v.action = none →
      v.serializerModel = some mc →
      has_permission cfg r v =
        (if SAFE_METHODS.contains r.method then
          match mc.methods "has_read_permission" with
          | some f => .ok (f r)
          | none => .error (.assertionError
              (_get_error_message mc.name "has_read_permission" none))
         else
          match mc.methods "has_write_permission" with
          | some f => .ok (f r)
          | none => .error (.assertionError
              (_get_error_message mc.name "has_write_permission" none)))) ∧
    (∀ (cfg : DRYPermissionsCfg) (r : Request) (cn : String)
        (mc1 mc2 : ModelClass),
      mc1.name = mc2.name →
      mc1.methods "has_read_permission" = mc2.methods "has_read_permission" →
      mc1.methods "has_write_permission" = mc2.methods "has_write_permission" →
      has_permission cfg r
          { action := none, serializerModel := some mc1, className := cn } =
        has_permission cfg r
          { action := none, serializerModel := some mc2, className := cn }) ∧
    (∀ (cfg : DRYPermissionsCfg) (r : Request) (v : GateView) (obj : Obj),
      cfg.object_permissions = true →
      v.action = none →
      has_object_permission cfg r v obj =
        (if SAFE_METHODS.contains r.method then
          match obj.getattr "has_object_read_permission" with
          | some f => .ok (f r)
          | none => .error (.assertionError
              (_get_error_message (metaModelName v.serializerModel)
                "has_object_read_permission" none))
         else
          match obj.getattr "has_object_write_permission" with
          | some f => .ok (f r)
          | none => .error (.assertionError
              (_get_error_message (metaModelName v.serializerModel)
                "has_object_write_permission" none)))) ∧
    (∀ (cfg : DRYPermissionsCfg) (r : Request) (v : GateView) (obj1 obj2 : Obj),
      v.action = none →
      obj1.getattr "has_object_read_permission" =
        obj2.getattr "has_object_read_permission" →
      obj1.getattr "has_object_write_permission" =
        obj2.getattr "has_object_write_permission" →
      has_object_permission cfg r v obj1 = has_object_permission cfg r v obj2) := by
  refine ⟨?_, ?_, ?_, ?_⟩
  · intro cfg r v mc hg ha hm
    simp [has_permission, hg, ha, hm]
  · intro cfg r cn mc1 mc2 hn hr hw
    simp only [has_permission, Option.map]
    rw [hn, hr, hw]
  · intro cfg r v obj hobj ha
    simp [has_object_permission, hobj, ha]
  · intro cfg r v obj1 obj2 ha hr hw
    simp only [has_object_permission, Option.map, ha]
    rw [hr, hw]

/-- Witness for C10: a view lacking the action attribute ignores mcFull's
specific retrieve method (which returns False) and resolves a GET through
has_read_permission (True); mcFull and a class stripped of every specific
method are indistinguishable. -/
theorem c10_witness :
    has_permission DRYPermissions.defaultCfg reqGET vNoAction = .ok true ∧
    has_permission DRYPermissions.defaultCfg reqGET vNoAction =
      has_permission DRYPermissions.defaultCfg reqGET
        { action := none,
          serializerModel := some
            { name := "ExampleModel",
              methods := fun n =>
                if n == "has_read_permission" then some (fun _ => true)
                else if n == "has_write_permission" then some (fun _ => true)
                else none },
          className := "ExampleView" } ∧
    has_object_permission DRYPermissions.defaultCfg reqGET vNoAction objFull =
      .ok true := by
  refine ⟨?_, ?_, ?_⟩
  · exact (c10_no_action_attribute_uses_general_methods_only.1
      DRYPermissions.defaultCfg reqGET vNoAction mcFull rfl rfl rfl).trans
      (by rfl)
  · exact c10_no_action_attribute_uses_general_methods_only.2.1
      DRYPermissions.defaultCfg reqGET "ExampleView" mcFull
      { name := "ExampleModel",
        methods := fun n =>
          if n == "has_read_permission" then some (fun _ => true)
          else if n == "has_write_permission" then some (fun _ => true)
          else none }
      rfl rfl rfl
  · exact (c10_no_action_attribute_uses_general_methods_only.2.2.1
      DRYPermissions.defaultCfg reqGET vNoAction objFull rfl rfl).trans
      (by rfl)

/-- C7: on a list-style request with action routing disabled,
filter_queryset delegates to filter_list_queryset, whose base body raises
the AssertionError when no subclass override exists; with action routing
enabled it delegates to the dynamically named filter method and raises
AttributeError when that name is defined nowhere on the instance (the one
name always defined is filter_list_queryset, whose inherited base body
raises the AssertionError instead). -/
theorem c7_list_request_routing_and_errors :
    ∀ (Q : Type) (self : FilterBackend Q) (r : Request) (q : Q)
      (v : FilterView),
    v.lookupFieldInKwargs = false →
    ((self.action_routing = false →
      (∀ f, self.subclassMethods "filter_list_queryset" = some f →
        filter_queryset self r q v = .ok (f r q v)) ∧
      (self.subclassMethods "filter_list_queryset" = none →
        filter_queryset self r q v = .error (.assertionError
          ("Method filter_list_queryset must be overridden on " ++ v.className)))) ∧
     (self.action_routing = true →
      (∀ f, self.subclassMethods ("filter_" ++ v.action ++ "_queryset") = some f →
        filter_queryset self r q v = .ok (f r q v)) ∧
      (self.subclassMethods ("filter_" ++ v.action ++ "_queryset") = none →
        ("filter_" ++ v.action ++ "_queryset") ≠ "filter_list_queryset" →
        filter_queryset self r q v =
          .error (.attributeError ("filter_" ++ v.action ++ "_queryset"))) ∧
      (self.subclassMethods "filter_list_queryset" = none →
        v.action = "list" →
        filter_queryset self r q v = .error (.assertionError
          ("Method filter_list_queryset must be overridden on " ++ v.className))))) := by
  intro Q self r q v hv
  constructor
  · intro hroute
    constructor
    · intro f hf
      simp [filter_queryset, filter_list_queryset, hv, hroute, hf]
    · intro hf
      simp [filter_queryset, filter_list_queryset, hv, hroute, hf]
  · intro hroute
    refine ⟨?_, ?_, ?_⟩
    · intro f hf
      simp [filter_queryset, hv, hroute, hf]
    · intro hf hne
      have hbeq : (("filter_" ++ v.action ++ "_queryset") ==
          "filter_list_queryset") = false := by
        simpa using hne
      simp [filter_queryset, hv, hroute, hf, hbeq]
    · intro hf ha
      simp [filter_queryset, filter_list_queryset, hv, hroute, ha, hf]

/-- Witness for C7: every branch at concrete backends over Nat querysets:
a subclass override of filter_list_queryset is used, the missing override
asserts, a routed custom filter is used, a missing routed filter raises
AttributeError, and routing to the action list without an override hits the
asserting base body. -/
theorem c7_witness :
    filter_queryset
      { action_routing := false,
        subclassMethods := fun n =>
          if n == "filter_list_queryset" then some (fun _ q _ => q + 1)
          else none }
      reqGET 10 { lookupFieldInKwargs := false, action := "list",
                  className := "OwnedView" } = .ok 11 ∧
    filter_queryset
      ({ action_routing := false, subclassMethods := fun _ => none } :
        FilterBackend Nat)
      reqGET 10 { lookupFieldInKwargs := false, action := "list",
                  className := "OwnedView" } =
      .error (.assertionError
        "Method filter_list_queryset must be overridden on OwnedView") ∧
    filter_queryset
      { action_routing := true,
        subclassMethods := fun n =>
          if n == "filter_owned_queryset" then some (fun _ q _ => q + 2)
          else none }
      reqGET 10 { lookupFieldInKwargs := false, action := "owned",
                  className := "OwnedView" } = .ok 12 ∧
    filter_queryset
      ({ action_routing := true, subclassMethods := fun _ => none } :
        FilterBackend Nat)
      reqGET 10 { lookupFieldInKwargs := false, action := "owned",
                  className := "OwnedView" } =
      .error (.attributeError "filter_owned_queryset") ∧
    filter_queryset
      ({ action_routing := true, subclassMethods := fun _ => none } :
        FilterBackend Nat)
      reqGET 10 { lookupFieldInKwargs := false, action := "list",
                  className := "OwnedView" } =
      .error (.assertionError
        "Method filter_list_queryset must be overridden on OwnedView") := by
  refine ⟨?_, ?_, ?_, ?_, ?_⟩
  · exact ((c7_list_request_routing_and_errors Nat
      { action_routing := false,
        subclassMethods := fun n =>
          if n == "filter_list_queryset" then some (fun _ q _ => q + 1)
          else none }
      reqGET 10 { lookupFieldInKwargs := false, action := "list",
                  className := "OwnedView" } rfl).1 rfl).1 _ rfl
  · exact ((c7_list_request_routing_and_errors Nat
      { action_routing := false, subclassMethods := fun _ => none }
      reqGET 10 { lookupFieldInKwargs := false, action := "list",
                  className := "OwnedView" } rfl).1 rfl).2 rfl
  · exact ((c7_list_request_routing_and_errors Nat
      { action_routing := true,
        subclassMethods := fun n =>
          if n == "filter_owned_queryset" then some (fun _ q _ => q + 2)
          else none }
      reqGET 10 { lookupFieldInKwargs := false, action := "owned",
                  className := "OwnedView" } rfl).2 rfl).1 _ rfl
  · exact (((c7_list_request_routing_and_errors Nat
      { action_routing := true, subclassMethods := fun _ => none }
      reqGET 10 { lookupFieldInKwargs := false, action := "owned",
                  className := "OwnedView" } rfl).2 rfl).2).1 rfl (by decide)
  · exact (((c7_list_request_routing_and_errors Nat
      { action_routing := true, subclassMethods := fun _ => none }
      reqGET 10 { lookupFieldInKwargs := false, action := "list",
                  className := "OwnedView" } rfl).2 rfl).2).2 rfl rfl

/-- C8 counterexample: the code tests for the substring has_object, not
object.  On a function named object_helper (which contains object but not
has_object) the wrapper reads the first argument, so with a non-staff first
argument, a staff second argument and a wrapped function returning False,
the code returns False while the claim's location rule dictates True. -/
theorem c8_counterexample :
    allow_staff_or_superuser "object_helper" (fun _ => false)
        [reqGET, reqStaff] = false ∧
    spec_allow_staff_or_superuser "object_helper" (fun _ => false)
        [reqGET, reqStaff] = true := by
  constructor <;> rfl

/-- C8 amended: the wrapper locates the request as the second positional
argument exactly when the wrapped function's name contains has_object (not
merely object) and as the first otherwise; a staff or superuser short
circuits to True without the wrapped function influencing the result, and
otherwise the wrapped function's result on the unchanged arguments is
returned. -/
theorem c8_staff_bypass_locates_request_by_has_object :
    ∀ (funcName : String) (func : List Request → Bool) (r0 r1 : Request)
      (rest : List Request),
    (pyIn "has_object" funcName = true →
      ((r1.user.is_staff || r1.user.is_superuser) = true →
        allow_staff_or_superuser funcName func (r0 :: r1 :: rest) = true) ∧
      ((r1.user.is_staff || r1.user.is_superuser) = false →
        allow_staff_or_superuser funcName func (r0 :: r1 :: rest) =
          func (r0 :: r1 :: rest))) ∧
    (pyIn "has_object" funcName = false →
      ((r0.user.is_staff || r0.user.is_superuser) = true →
        allow_staff_or_superuser funcName func (r0 :: r1 :: rest) = true) ∧
      ((r0.user.is_staff || r0.user.is_superuser) = false →
        allow_staff_or_superuser funcName func (r0 :: r1 :: rest) =
          func (r0 :: r1 :: rest))) := by
  intro funcName func r0 r1 rest
  constructor
  · intro hname
    constructor <;> intro hu <;>
      simp [allow_staff_or_superuser, hname, hu, List.getD]
  · intro hname
    constructor <;> intro hu <;>
      simp [allow_staff_or_superuser, hname, hu, List.getD]

/-- Witness for C8 amended: an object permission method name short-circuits
on a staff second argument, and a global name with a plain first argument
delegates to the wrapped function. -/
theorem c8_witness :
    allow_staff_or_superuser "has_object_write_permission" (fun _ => false)
        [reqGET, reqStaff] = true ∧
    allow_staff_or_superuser "has_write_permission" (fun _ => true)
        [reqGET, reqStaff] = true := by
  constructor
  · exact ((c8_staff_bypass_locates_request_by_has_object
      "has_object_write_permission" (fun _ => false) reqGET reqStaff []).1
      (by decide)).1 rfl
  · exact ((c8_staff_bypass_locates_request_by_has_object
      "has_write_permission" (fun _ => true) reqGET reqStaff []).2
      (by decide)).2 rfl

/-! ## C4: characterising the bound field's representation -/

/-- Lookup in the outcome of to_representation: some (the dictionary entry,
or none when the key is absent) when the call succeeds, none when it
raises. -/
def reprLookup (e : Except PyError (List (String × Bool))) (a : String) :
    Option (Option Bool) :=
  match e with
  | .ok l => some (alGet l a)
  | .error _ => none

/-- The value C4 predicts for one action of a bound field with both mode
flags false: the conjunction of the global and the object result when the
model defines both methods, the one method's result when it defines exactly
one, and no entry at all when it defines neither. -/
def reportedValueSpec (model : ModelClass) (request : Request) (a : String) :
    Option Bool :=
  match model.methods (global_method_name a),
        model.methods (object_method_name a) with
  | some gf, some obf => some (gf request && obf request)
  | some gf, none => some (gf request)
  | none, some obf => some (obf request)
  | none, none => none

theorem alGet_alSet_self (l : List (String × Bool)) (k : String) (v : Bool) :
    alGet (alSet l k v) k = some v := by
  induction l with
  | nil => simp [alSet, alGet]
  | cons p rest ih =>
    obtain ⟨k', v'⟩ := p
    by_cases h : k' = k
    · subst h; simp [alSet, alGet]
    · simp [alSet, alGet, h, ih]

theorem alGet_alSet_ne (l : List (String × Bool)) (k : String) (v : Bool)
    (b : String) (hb : b ≠ k) : alGet (alSet l k v) b = alGet l b := by
  induction l with
  | nil => simp [alSet, alGet, Ne.symm hb]
  | cons p rest ih =>
    obtain ⟨k', v'⟩ := p
    by_cases h : k' = k
    · subst h
      simp [alSet, alGet, Ne.symm hb]
    · by_cases h2 : k' = b
      · subst h2; simp [alSet, alGet, h]
      · simp [alSet, alGet, h, h2, ih]

/-- When bind records no entry for an action, C4 predicts no entry. -/
theorem bindEntry_none_reportedValueSpec (model : ModelClass)
    (request : Request) (x : String)
    (hent : bindEntry model false false x = none) :
    reportedValueSpec model request x = none := by
  cases hg : model.methods (global_method_name x) with
  | some gf => simp [bindEntry, hg] at hent
  | none =>
    cases hob : model.methods (object_method_name x) with
    | some obf => simp [bindEntry, hg, hob] at hent
    | none => simp [reportedValueSpec, hg, hob]

/-- Processing one recorded action of a bound field (mode flags false, and
an instance whose attribute lookup agrees with its model class) succeeds,
sets that action's entry to the predicted value, and leaves every other key
unchanged — provided each existing entry already carries its predicted
value, which covers a repeated action in the configured list. -/
theorem processAction_bindEntry (model : ModelClass) (value : Obj)
    (request : Request) (H : ∀ n, value.getattr n = model.methods n)
    (results : List (String × Bool)) (x : String) (mns : ActionMethods)
    (hent : bindEntry model false false x = some mns)
    (hinv : alGet results x = none ∨
            alGet results x = reportedValueSpec model request x) :
    ∃ results',
      processAction false false model value request results x mns = .ok results' ∧
      alGet results' x = reportedValueSpec model request x ∧
      ∀ b, b ≠ x → alGet results' b = alGet results b := by
  cases hg : model.methods (global_method_name x) with
  | some gf =>
    cases hob : model.methods (object_method_name x) with
    | some obf =>
      have hmns : mns = { globalName := some (global_method_name x),
                          objectName := some (object_method_name x) } := by
        simp [bindEntry, hg, hob] at hent
        exact hent.symm
      subst hmns
      cases hgr : gf request with
      | true =>
        refine ⟨alSet (alSet results x true) x (obf request), ?_, ?_, ?_⟩
        · simp [processAction, hg, hob, H, hgr, alGet_alSet_self]
        · simp [reportedValueSpec, hg, hob, hgr, alGet_alSet_self]
        · intro b hb
          rw [alGet_alSet_ne _ _ _ _ hb, alGet_alSet_ne _ _ _ _ hb]
      | false =>
        refine ⟨alSet results x false, ?_, ?_, ?_⟩
        · simp [processAction, hg, hob, H, hgr, alGet_alSet_self]
        · simp [reportedValueSpec, hg, hob, hgr, alGet_alSet_self]
        · intro b hb
          rw [alGet_alSet_ne _ _ _ _ hb]
    | none =>
      have hmns : mns = { globalName := some (global_method_name x),
                          objectName := none } := by
        simp [bindEntry, hg, hob] at hent
        exact hent.symm
      subst hmns
      refine ⟨alSet results x (gf request), ?_, ?_, ?_⟩
      · simp [processAction, hg]
      · simp [reportedValueSpec, hg, hob, alGet_alSet_self]
      · intro b hb
        rw [alGet_alSet_ne _ _ _ _ hb]
  | none =>
    cases hob : model.methods (object_method_name x) with
    | some obf =>
      have hmns : mns = { globalName := none,
                          objectName := some (object_method_name x) } := by
        simp [bindEntry, hg, hob] at hent
        exact hent.symm
      subst hmns
      have hspec : reportedValueSpec model request x = some (obf request) := by
        simp [reportedValueSpec, hg, hob]
      cases hinv with
      | inl hnone =>
        refine ⟨alSet results x (obf request), ?_, ?_, ?_⟩
        · simp [processAction, hg, hob, H, hnone]
        · simp [hspec, alGet_alSet_self]
        · intro b hb
          rw [alGet_alSet_ne _ _ _ _ hb]
      | inr hval =>
        rw [hspec] at hval
        cases hor : obf request with
        | true =>
          refine ⟨alSet results x true, ?_, ?_, ?_⟩
          · rw [hor] at hval
            simp [processAction, hg, hob, H, hval, hor]
          · simp [hspec, hor, alGet_alSet_self]
          · intro b hb
            rw [alGet_alSet_ne _ _ _ _ hb]
        | false =>
          refine ⟨results, ?_, ?_, ?_⟩
          · rw [hor] at hval
            simp [processAction, hg, hob, H, hval]
          · rw [hval, hspec, hor]
          · intro b hb
            rfl
    | none =>
      simp [bindEntry, hg, hob] at hent

/-- Running the representation loop over the map bind builds: it always
succeeds and computes, for every action of the list, exactly the predicted
entry, leaving keys outside the list untouched. -/
theorem to_representation_loop_bindMap (model : ModelClass) (value : Obj)
    (request : Request) (H : ∀ n, value.getattr n = model.methods n) :
    ∀ (actions : List String) (results : List (String × Bool)),
    (∀ a, alGet results a = none ∨
          alGet results a = reportedValueSpec model request a) →
    ∃ res,
      to_representation_loop false false model value request
        (bindMap model false false actions) results = .ok res ∧
      ∀ a, alGet res a =
        if a ∈ actions then reportedValueSpec model request a
        else alGet results a := by
  intro actions
  induction actions with
  | nil =>
    intro results hinv
    exact ⟨results, rfl, by simp [bindMap, to_representation_loop]⟩
  | cons x rest ih =>
    intro results hinv
    cases hent : bindEntry model false false x with
    | none =>
      obtain ⟨res, hres, hget⟩ := ih results hinv
      refine ⟨res, ?_, ?_⟩
      · simpa [bindMap, hent] using hres
      · intro a
        by_cases har : a ∈ rest
        · simp only [hget a, if_pos har, List.mem_cons]
          rw [if_pos (Or.inr har)]
        · by_cases hax : a = x
          · subst hax
            rw [if_pos (List.mem_cons_self a rest)]
            have hs := bindEntry_none_reportedValueSpec model request a hent
            rw [hget a, if_neg har]
            cases hinv a with
            | inl h0 => rw [h0, hs]
            | inr h0 => exact h0
          · rw [hget a, if_neg har,
              if_neg (by simp [List.mem_cons, hax, har])]
    | some mns =>
      obtain ⟨results', hstep, hx, hframe⟩ :=
        processAction_bindEntry model value request H results x mns hent
          (hinv x)
      have hinv' : ∀ a, alGet results' a = none ∨
          alGet results' a = reportedValueSpec model request a := by
        intro a
        by_cases hax : a = x
        · subst hax
          exact Or.inr hx
        · rw [hframe a hax]
          exact hinv a
      obtain ⟨res, hres, hget⟩ := ih results' hinv'
      refine ⟨res, ?_, ?_⟩
      · simpa [bindMap, hent, to_representation_loop, hstep] using hres
      · intro a
        by_cases har : a ∈ rest
        · rw [hget a, if_pos har, if_pos (List.mem_cons.2 (Or.inr har))]
        · by_cases hax : a = x
          · subst hax
            rw [hget a, if_neg har, if_pos (List.mem_cons_self a rest), hx]
          · rw [hget a, if_neg har, hframe a hax,
              if_neg (by simp [List.mem_cons, hax, har])]

/-- C4: on a bound DRYPermissionsField with global_only and object_only
both false, over an instance whose attribute lookup agrees with the model
class, to_representation succeeds and maps each configured action to the
conjunction of its global and object results when the model defines both
methods (so a false global result is reported as false for every possible
object method), to the single method's result when exactly one exists, and
to no entry at all when neither exists; keys outside the action list never
appear. -/
theorem c4_bound_field_representation :
    ∀ (model : ModelClass) (value : Obj) (request : Request)
      (actions : List String) (a : String),
    (∀ n, value.getattr n = model.methods n) →
    reprLookup
      (to_representation false false model value request
        (bindMap model false false actions)) a =
      some (if a ∈ actions then reportedValueSpec model request a else none) := by
  intro model value request actions a H
  obtain ⟨res, hres, hget⟩ :=
    to_representation_loop_bindMap model value request H actions []
      (by intro b; left; rfl)
  rw [to_representation, hres]
  rw [reprLookup, hget a]
  rfl

/-- A model class for the field witness: create has both methods with the
global one false (short-circuit case), retrieve has both methods true,
update has only the global method, destroy has only the object method, and
write/read have neither. -/
def mcField : ModelClass :=
  { name := "FieldModel",
    methods := fun n =>
      if n == "has_create_permission" then some (fun _ => false)
      else if n == "has_object_create_permission" then some (fun _ => true)
      else if n == "has_retrieve_permission" then some (fun _ => true)
      else if n == "has_object_retrieve_permission" then some (fun _ => true)
      else if n == "has_update_permission" then some (fun _ => true)
      else if n == "has_object_destroy_permission" then some (fun _ => true)
      else none }

/-- An instance of mcField with no instance attributes. -/
def objField : Obj := { cls := mcField, instMethods := fun _ => none }

/-- Witness for C4 over the default action list: create is reported false
(global false masks the object method), retrieve true (both true), update
true (global only), destroy true (object only), read absent (no methods),
and a name outside the list is absent. -/
theorem c4_witness :
    reprLookup
      (to_representation false false mcField objField reqGET
        (bindMap mcField false false default_actions)) "create" =
      some (some false) ∧
    reprLookup
      (to_representation false false mcField objField reqGET
        (bindMap mcField false false default_actions)) "retrieve" =
      some (some true) ∧
    reprLookup
      (to_representation false false mcField objField reqGET
        (bindMap mcField false false default_actions)) "update" =
      some (some true) ∧
    reprLookup
      (to_representation false false mcField objField reqGET
        (bindMap mcField false false default_actions)) "destroy" =
      some (some true) ∧
    reprLookup
      (to_representation false false mcField objField reqGET
        (bindMap mcField false false default_actions)) "read" =
      some none ∧
    reprLookup
      (to_representation false false mcField objField reqGET
        (bindMap mcField false false default_actions)) "list" =
      some none := by
  refine ⟨?_, ?_, ?_, ?_, ?_, ?_⟩
  · rw [c4_bound_field_representation mcField objField reqGET default_actions
      "create" (fun n => rfl)]
    decide
  · rw [c4_bound_field_representation mcField objField reqGET default_actions
      "retrieve" (fun n => rfl)]
    decide
  · rw [c4_bound_field_representation mcField objField reqGET default_actions
      "update" (fun n => rfl)]
    decide
  · rw [c4_bound_field_representation mcField objField reqGET default_actions
      "destroy" (fun n => rfl)]
    decide
  · rw [c4_bound_field_representation mcField objField reqGET default_actions
      "read" (fun n => rfl)]
    decide
  · rw [c4_bound_field_representation mcField objField reqGET default_actions
      "list" (fun n => rfl)]
    decide

end DRY
